import Mathlib

/-
Verification of the Patricia NNUE evaluation core (src/nnue/nnue_patricia.{h,cpp},
src/patricia_eval.{h,cpp}) against its natural-language specification.

Shallow embedding conventions:
- int16 accumulator cells are modelled as ZMod 65536, the additive group of
  16-bit two's-complement wraparound arithmetic; signed reads go through
  int16ToSigned.
- C++ integer arithmetic widened to int32 (the forward pass and the modifier
  pipeline) is modelled as Int, with every C++ `/` (truncation toward zero)
  rendered as Int.tdiv and every `%` as Int.tmod.
- The Position, DirtyPiece and Value types come from Stockfish translation
  units that are not part of this repository slice; they are modelled from the
  spec at their interface boundary (a square-indexed piece query, a side to
  move, a halfmove clock, an up-to-two-removals/two-additions move delta).
- In-place loops that accumulate commutative sums are rendered as List/Finset
  sums over the same index ranges, in the same element order.
-/

namespace Patricia

/-- Model of a 16-bit two's-complement machine word: the additive group of
integers mod 2^16. Addition and subtraction agree bit-for-bit with C++
int16_t wraparound. -/
abbrev Int16 := ZMod 65536

/-- Signed reading of a 16-bit word, as done when an int16_t is widened to
int32_t in C++ (values of 32768 and above represent negatives). -/
def int16ToSigned (x : Int16) : Int :=
  if x.val < 32768 then (x.val : Int) else (x.val : Int) - 65536

/-- Architecture constant from nnue_patricia.h: input feature count. -/
def PATRICIA_INPUT_SIZE : Nat := 768

/-- Architecture constant from nnue_patricia.h: hidden layer width. -/
def PATRICIA_LAYER1_SIZE : Nat := 768

/-- Quantization constant QA from nnue_patricia.h. -/
def PATRICIA_QA : Int := 255

/-- Quantization constant QB from nnue_patricia.h. -/
def PATRICIA_QB : Int := 64

/-- Quantization constant QAB = QA * QB from nnue_patricia.h. -/
def PATRICIA_QAB : Int := PATRICIA_QA * PATRICIA_QB

/-- Output scale from nnue_patricia.h. -/
def PATRICIA_SCALE : Int := 400

/-- SCReLU clamp bounds from nnue_patricia.h. -/
def PATRICIA_SCRELU_MIN : Int := 0

/-- SCReLU clamp upper bound from nnue_patricia.h. -/
def PATRICIA_SCRELU_MAX : Int := 255

/-- Network parameters (struct PatriciaNetParams). The flat int16 arrays are
modelled as total functions from flat indices; only in-range indices are ever
read by the operations below. output weights and bias are read as signed
values, feature weights and bias only ever participate in wraparound adds. -/
structure PatriciaNetParams where
  feature_weights : Nat → Int16
  feature_bias : Fin PATRICIA_LAYER1_SIZE → Int16
  output_weights : Nat → Int
  output_bias : Int

/-- Accumulator (struct PatriciaAccumulator): one int16 vector per perspective. -/
@[ext]
structure PatriciaAccumulator where
  white : Fin PATRICIA_LAYER1_SIZE → Int16
  black : Fin PATRICIA_LAYER1_SIZE → Int16

/-- Accumulator with every cell zero (used as the model of uninitialized
stack slots above the cursor; the source leaves them indeterminate and never
reads them). -/
def zero_accumulator : PatriciaAccumulator :=
  { white := fun _ => 0, black := fun _ => 0 }

/-- SCReLU activation from nnue_patricia.h: clamp the signed int16 value to
[PATRICIA_SCRELU_MIN, PATRICIA_SCRELU_MAX], then square (std::clamp(v,lo,hi)
is max lo (min v hi) for lo <= hi). -/
def screlu (x : Int16) : Int :=
  let clipped := max PATRICIA_SCRELU_MIN (min (int16ToSigned x) PATRICIA_SCRELU_MAX)
  clipped * clipped

/-- Forward pass PatriciaNetwork::evaluate from nnue_patricia.cpp: activate
both perspective vectors with screlu, dot them with the two output-weight
segments (us = segment 0, them = segment 1), then divide by QA, add the
output bias, scale and divide by QAB, every division truncating toward zero. -/
def evaluate (net : PatriciaNetParams) (accumulator : PatriciaAccumulator)
    (perspective_white : Bool) : Int :=
  let us_acc := if perspective_white then accumulator.white else accumulator.black
  let them_acc := if perspective_white then accumulator.black else accumulator.white
  let sum : Int :=
    (∑ i : Fin PATRICIA_LAYER1_SIZE, screlu (us_acc i) * net.output_weights i.val) +
    (∑ i : Fin PATRICIA_LAYER1_SIZE,
      screlu (them_acc i) * net.output_weights (PATRICIA_LAYER1_SIZE + i.val))
  let output := Int.tdiv sum PATRICIA_QA
  Int.tdiv ((output + net.output_bias) * PATRICIA_SCALE) PATRICIA_QAB

/-- PatriciaNetwork::update_accumulator from nnue_patricia.cpp: add or
subtract the feature-weight row starting at feature_index * LAYER1_SIZE
to/from the selected perspective vector. -/
def update_accumulator (net : PatriciaNetParams) (acc : PatriciaAccumulator)
    (is_white_feature : Bool) (feature_index : Nat) (add : Bool) : PatriciaAccumulator :=
  if is_white_feature then
    { acc with white := fun i =>
        if add then acc.white i + net.feature_weights (feature_index * PATRICIA_LAYER1_SIZE + i.val)
        else acc.white i - net.feature_weights (feature_index * PATRICIA_LAYER1_SIZE + i.val) }
  else
    { acc with black := fun i =>
        if add then acc.black i + net.feature_weights (feature_index * PATRICIA_LAYER1_SIZE + i.val)
        else acc.black i - net.feature_weights (feature_index * PATRICIA_LAYER1_SIZE + i.val) }

/-- PatriciaNetwork::init_accumulator from nnue_patricia.h: both perspective
vectors are set to the hidden (feature) bias. -/
def init_accumulator (net : PatriciaNetParams) : PatriciaAccumulator :=
  { white := fun i => net.feature_bias i, black := fun i => net.feature_bias i }

/-- Feature indexing from nnue_patricia.cpp. Takes a Stockfish piece code
(W_PAWN=1..W_KING=6, B_PAWN=9..B_KING=14) and a square 0..63 and produces the
white-perspective and black-perspective flat feature indices. -/
def feature_indices (stockfish_piece : Nat) (square : Nat) : Nat × Nat :=
  let color_stride : Nat := 64 * 6
  let piece_stride : Nat := 64
  let piece_type := (stockfish_piece - 1) % 8
  let color : Nat := if 9 ≤ stockfish_piece then 1 else 0
  let white_idx := color * color_stride + piece_type * piece_stride + square
  let black_idx := (color ^^^ 1) * color_stride + piece_type * piece_stride + (square ^^^ 56)
  (white_idx, black_idx)

/-- Modelled from the spec: the board-state collaborator (class Position,
whose implementation is outside this repository slice). It supplies a
square-indexed piece-occupancy query (Stockfish piece codes, 0 = NO_PIECE,
code = 8 * color + piece_type with piece_type 1..6), a side-to-move flag and
the halfmove (rule50) counter. -/
structure Position where
  piece_on : Fin 64 → Nat
  whiteToMove : Bool
  rule50 : Int

/-- Occupied squares of a position, in square order, paired with the piece
code sitting on them. This is the iteration sequence of the square loop in
refresh_accumulator. -/
def boardList (pos : Position) : List (Nat × Nat) :=
  (List.finRange 64).filterMap fun sq =>
    if pos.piece_on sq ≠ 0 then some (pos.piece_on sq, sq.val) else none

/-- One white-perspective feature-weight cell for a (piece, square) pair:
row (feature_indices pc sq).1, column i. -/
def weightRowW (net : PatriciaNetParams) (e : Nat × Nat) (i : Fin PATRICIA_LAYER1_SIZE) : Int16 :=
  net.feature_weights ((feature_indices e.1 e.2).1 * PATRICIA_LAYER1_SIZE + i.val)

/-- One black-perspective feature-weight cell for a (piece, square) pair:
row (feature_indices pc sq).2, column i. -/
def weightRowB (net : PatriciaNetParams) (e : Nat × Nat) (i : Fin PATRICIA_LAYER1_SIZE) : Int16 :=
  net.feature_weights ((feature_indices e.1 e.2).2 * PATRICIA_LAYER1_SIZE + i.val)

/-- refresh_accumulator from nnue_patricia.cpp: start from the bias
(init_accumulator), then for every occupied square add the white-perspective
row to the white vector and the black-perspective row to the black vector.
The in-place square loop accumulates a commutative sum, written here as a
list sum over the same squares in the same order. -/
def refresh_accumulator (net : PatriciaNetParams) (pos : Position) : PatriciaAccumulator :=
  { white := fun i =>
      net.feature_bias i + ((boardList pos).map fun e => weightRowW net e i).sum,
    black := fun i =>
      net.feature_bias i + ((boardList pos).map fun e => weightRowB net e i).sum }

/-- Phase enumeration (enum class PatriciaPhase), modelled by its underlying
C++ integer representation so that out-of-range values are expressible. -/
def PatriciaPhase.Middlegame : Int := 0

/-- Endgame phase enumerator value. -/
def PatriciaPhase.Endgame : Int := 1

/-- Sacrifice phase enumerator value. -/
def PatriciaPhase.Sacrifice : Int := 2

/-- The three-network bundle (class PatriciaNetworks). -/
structure PatriciaNetworks where
  firefly : PatriciaNetParams
  rw3 : PatriciaNetParams
  allie : PatriciaNetParams

/-- PatriciaNetworks::get_network from nnue_patricia.h: switch on the phase
with a default branch that silently falls back to the firefly (Middlegame)
network for any value outside the three enumerators. -/
def get_network (nets : PatriciaNetworks) (phase : Int) : PatriciaNetParams :=
  if phase = PatriciaPhase.Middlegame then nets.firefly
  else if phase = PatriciaPhase.Endgame then nets.rw3
  else if phase = PatriciaPhase.Sacrifice then nets.allie
  else nets.firefly

/-- Modelled from the spec: the FeatureDelta ("DirtyPiece") descriptor
produced by the move-make collaborator (not part of this repository slice):
a moved piece with origin and destination, an optional removal (capture or
castling rook origin) and an optional addition (promotion or castling rook
destination). SQ_NONE sentinels are modelled as none. Field `from` of the
source is renamed fromSq (reserved word), `to` is renamed toSq. -/
structure DirtyPiece where
  pc : Nat
  fromSq : Option (Fin 64)
  toSq : Option (Fin 64)
  remove_pc : Nat
  remove_sq : Option (Fin 64)
  add_pc : Nat
  add_sq : Option (Fin 64)

/-- Modelled from the spec: the accumulator stack capacity (maximum supported
search ply). The array bound of the real PatriciaState struct is declared in
a translation unit outside this slice; the spec fixes it as the engine
maximum-ply constant, 256. -/
def STACK_CAPACITY : Nat := 256

/-- Per-search-line evaluation state (struct PatriciaState as used by
patricia_eval.cpp): phase, the accumulator stack with its cursor, the depth
of the last phase check and the root material-advantage snapshot. The
declared-but-never-populated material_diff_history / history_length fields
are vestigial and carry no observable behavior, so they are omitted. The
stack is a total function from slot index; slots above the cursor are
unspecified in the source (modelled as zero_accumulator at initialization). -/
structure PatriciaState where
  phase : Int
  accumulatorStack : Nat → PatriciaAccumulator
  current : Nat
  last_phase_check_depth : Int
  starting_material_diff : Int

/-- Piece values table shared by get_material_count and get_material_diff in
patricia_eval.cpp (indexed by piece type). -/
def piece_value : Nat → Int
  | 1 => 100
  | 2 => 320
  | 3 => 330
  | 4 => 500
  | 5 => 900
  | _ => 0

/-- Modelled from the spec: popcount(pos.pieces(pt)) of the board
collaborator - the number of squares holding a piece of type pt of either
color (Stockfish codes pt and 8 + pt). -/
def pieces_count (pos : Position) (pt : Nat) : Nat :=
  ((List.finRange 64).filter fun sq =>
    pos.piece_on sq = pt ∨ pos.piece_on sq = 8 + pt).length

/-- Modelled from the spec: popcount(pos.pieces(color, pt)) of the board
collaborator - the number of squares holding a piece of type pt of one color. -/
def pieces_count_color (pos : Position) (white : Bool) (pt : Nat) : Nat :=
  ((List.finRange 64).filter fun sq =>
    pos.piece_on sq = (if white then 0 else 8) + pt).length

/-- get_material_count from patricia_eval.cpp: total board material, summing
piece values over piece types PAWN..QUEEN for both colors. -/
def get_material_count (pos : Position) : Int :=
  (([1, 2, 3, 4, 5] : List Nat).map fun pt =>
    (pieces_count pos pt : Int) * piece_value pt).sum

/-- get_material_diff from patricia_eval.cpp: material advantage of the side
to move (our material minus their material over piece types PAWN..QUEEN). -/
def get_material_diff (pos : Position) : Int :=
  let our := (([1, 2, 3, 4, 5] : List Nat).map fun pt =>
    (pieces_count_color pos pos.whiteToMove pt : Int) * piece_value pt).sum
  let their := (([1, 2, 3, 4, 5] : List Nat).map fun pt =>
    (pieces_count_color pos (!pos.whiteToMove) pt : Int) * piece_value pt).sum
  our - their

/-- init_patricia_state from patricia_eval.cpp: phase to Middlegame, depth
memo to 0, snapshot the material advantage, point the cursor at slot 0 and
build that slot by a full refresh under the Middlegame network. -/
def init_patricia_state (nets : PatriciaNetworks) (pos : Position) : PatriciaState :=
  { phase := PatriciaPhase.Middlegame,
    last_phase_check_depth := 0,
    starting_material_diff := get_material_diff pos,
    current := 0,
    accumulatorStack := Function.update (fun _ => zero_accumulator) 0
      (refresh_accumulator (get_network nets PatriciaPhase.Middlegame) pos) }

/-- apply_feature_update from patricia_eval.cpp: compute both feature indices
for (piece, square) and update the white perspective with the white index and
the black perspective with the black index. -/
def apply_feature_update (net : PatriciaNetParams) (acc : PatriciaAccumulator)
    (piece : Nat) (square : Nat) (add : Bool) : PatriciaAccumulator :=
  let idx := feature_indices piece square
  update_accumulator net (update_accumulator net acc true idx.1 add) false idx.2 add

/-- push_patricia_accumulator from patricia_eval.cpp: copy the top
accumulator into the next slot, advance the cursor, then apply the up-to-four
feature updates of the DirtyPiece to the new top (remove origin, add
destination, remove capture/castling rook, add promotion/castling rook).
There is no capacity check in the source; the cursor advances
unconditionally. -/
def push_patricia_accumulator (nets : PatriciaNetworks) (st : PatriciaState)
    (dp : DirtyPiece) : PatriciaState :=
  let net := get_network nets st.phase
  let a0 := st.accumulatorStack st.current
  let a1 := match dp.fromSq with
    | some sq => apply_feature_update net a0 dp.pc sq.val false
    | none => a0
  let a2 := match dp.toSq with
    | some sq => apply_feature_update net a1 dp.pc sq.val true
    | none => a1
  let a3 := match dp.remove_sq with
    | some sq => apply_feature_update net a2 dp.remove_pc sq.val false
    | none => a2
  let a4 := match dp.add_sq with
    | some sq => apply_feature_update net a3 dp.add_pc sq.val true
    | none => a3
  { st with current := st.current + 1,
            accumulatorStack := Function.update st.accumulatorStack (st.current + 1) a4 }

/-- pop_patricia_accumulator from patricia_eval.cpp: retreat the cursor by
one; nothing else is touched. -/
def pop_patricia_accumulator (st : PatriciaState) : PatriciaState :=
  { st with current := st.current - 1 }

/-- Modelled from the spec: VALUE_DRAW of types.h (the draw reference value),
which is 0. -/
def VALUE_DRAW : Int := 0

/-- Modelled from the spec: the forced-win / tablebase sentinel bound of
types.h (is_win of the source). Scores at or above it are terminal and must
bypass the modifier pipeline; its exact magnitude is immaterial to the
claims, which only use small non-terminal scores. -/
def VALUE_TB_WIN_IN_MAX_PLY : Int := 31507

/-- Modelled from the spec: is_win of types.h - the score signals a forced
win or tablebase win. -/
def is_win (v : Int) : Bool := decide (VALUE_TB_WIN_IN_MAX_PLY ≤ v)

/-- Modelled from the spec: is_loss of types.h - the score signals a forced
loss or tablebase loss. -/
def is_loss (v : Int) : Bool := decide (v ≤ -VALUE_TB_WIN_IN_MAX_PLY)

/-- detect_phase from patricia_eval.cpp. -/
def detect_phase (eval : Int) (depth : Int) : Int :=
  if 6 ≤ depth then
    if eval < VALUE_DRAW - 100 then PatriciaPhase.Endgame
    else if VALUE_DRAW + 300 < eval then PatriciaPhase.Sacrifice
    else PatriciaPhase.Middlegame
  else PatriciaPhase.Middlegame

/-- Modifiers::draw_contempt from patricia_eval.cpp: contempt starts at
VALUE_DRAW, gains 50 when the side to move is behind in material, loses 50
when ahead, and is added to the score. -/
def draw_contempt (pos : Position) (base_score : Int) : Int :=
  let material_diff := get_material_diff pos
  let contempt :=
    if material_diff < 0 then VALUE_DRAW + 50
    else if 0 < material_diff then VALUE_DRAW - 50
    else VALUE_DRAW
  base_score + contempt

/-- Modifiers::sacrifice_bonus from patricia_eval.cpp: only on even search
plies, only above the 3500 material floor, and only when the side to move's
material advantage has worsened by more than 100 against the root snapshot;
then 80 when clearly winning, 40 when ahead, else 0. -/
def sacrifice_bonus (pos : Position) (st : PatriciaState) (eval : Int)
    (search_ply : Int) : Int :=
  if Int.tmod search_ply 2 = 0 then
    let total_material := get_material_count pos
    if total_material ≤ 3500 then 0
    else
      let material_diff := get_material_diff pos
      let starting_diff := st.starting_material_diff
      if material_diff < starting_diff - 100 then
        if VALUE_DRAW + 300 < eval then 80
        else if VALUE_DRAW < eval then 40
        else 0
      else 0
  else 0

/-- Modifiers::material_scaling from patricia_eval.cpp. The source computes
multiplier = (750.0f + total_material / 25.0f) / 1024.0f in 32-bit floating
point and truncates eval * multiplier back to an integer; this embedding
computes the same product with exact rational arithmetic,
eval * (18750 + total_material) / 25600, truncated toward zero. The claims
proved below only evaluate it at eval = 0, where the float computation is
exact and agrees; the floating-point rounding itself is outside this
embedding (see the C9 discussion). -/
def material_scaling (eval : Int) (pos : Position) : Int :=
  let total_material := get_material_count pos
  Int.tdiv (eval * (18750 + total_material)) 25600

/-- Modifiers::better_than_material from patricia_eval.cpp: a bonus of
25 + excess / 10 when the score is positive and beats the material advantage
by more than the threshold 150, the mirrored negative bonus when the score is
negative and trails it by more than 150, else 0. -/
def better_than_material (eval : Int) (pos : Position) : Int :=
  let material_eval := get_material_diff pos
  let threshold : Int := 150
  if 0 < eval ∧ material_eval + threshold < eval then
    25 + Int.tdiv (eval - material_eval - threshold) 10
  else if eval < 0 ∧ eval < material_eval - threshold then
    -(25 + Int.tdiv (material_eval - eval - threshold) 10)
  else 0

/-- The phase re-detection step at the head of evaluate_patricia: when the
depth is at least 6 and differs from the memoized last check depth, evaluate
a preliminary score with the currently active network and accumulator, run
detect_phase, and on a phase change refresh the top accumulator in place
under the new phase's network; finally memoize the depth. -/
def phase_checked_state (nets : PatriciaNetworks) (pos : Position)
    (st : PatriciaState) (depth : Int) : PatriciaState :=
  if 6 ≤ depth ∧ depth ≠ st.last_phase_check_depth then
    let prelim_eval := evaluate (get_network nets st.phase)
      (st.accumulatorStack st.current) pos.whiteToMove
    let new_phase := detect_phase prelim_eval depth
    let st1 :=
      if new_phase ≠ st.phase then
        { st with phase := new_phase,
                  accumulatorStack := Function.update st.accumulatorStack st.current
                    (refresh_accumulator (get_network nets new_phase) pos) }
      else st
    { st1 with last_phase_check_depth := depth }
  else st

/-- The raw network score read by evaluate_patricia after the phase check:
the active network's forward pass on the top accumulator. -/
def raw_after_phase (nets : PatriciaNetworks) (pos : Position)
    (st : PatriciaState) (depth : Int) : Int :=
  let st1 := phase_checked_state nets pos st depth
  evaluate (get_network nets st1.phase) (st1.accumulatorStack st1.current) pos.whiteToMove

/-- evaluate_patricia from patricia_eval.cpp: phase check, raw network score,
terminal guard, then the modifier pipeline (better_than_material +
sacrifice_bonus added to the score, material scaling, fifty-move decay when
the halfmove clock is positive, draw contempt). Returns the score and the
state after the call (the source mutates the state in place). -/
def evaluate_patricia (nets : PatriciaNetworks) (pos : Position)
    (st : PatriciaState) (depth : Int) (search_ply : Int) : Int × PatriciaState :=
  let st1 := phase_checked_state nets pos st depth
  let eval := raw_after_phase nets pos st depth
  let score :=
    if is_win eval || is_loss eval then eval
    else
      let bonus1 := better_than_material eval pos
      let bonus2 := sacrifice_bonus pos st1 eval search_ply
      let e1 := eval + bonus1 + bonus2
      let e2 := material_scaling e1 pos
      let e3 := if 0 < pos.rule50 then Int.tdiv (e2 * (200 - pos.rule50)) 200 else e2
      draw_contempt pos e3
  (score, st1)

/-! Shared concrete fixtures and helper lemmas. -/

/-- A network with every weight and bias zero. -/
def netZero : PatriciaNetParams :=
  { feature_weights := fun _ => 0, feature_bias := fun _ => 0,
    output_weights := fun _ => 0, output_bias := 0 }

/-- A network with zero weights and a large negative output bias (its forward
pass returns -122 from every accumulator). -/
def netBias : PatriciaNetParams :=
  { feature_weights := fun _ => 0, feature_bias := fun _ => 0,
    output_weights := fun _ => 0, output_bias := -5000 }

/-- The all-zero three-network bundle. -/
def netsZero : PatriciaNetworks := { firefly := netZero, rw3 := netZero, allie := netZero }

/-- An empty board, white to move. -/
def posEmpty : Position := { piece_on := fun _ => 0, whiteToMove := true, rule50 := 0 }

/-- A delta with no feature events (every square field is the SQ_NONE
sentinel). -/
def dpNull : DirtyPiece :=
  { pc := 1, fromSq := none, toSq := none, remove_pc := 0, remove_sq := none,
    add_pc := 0, add_sq := none }

/-- With all output weights zero, the forward pass collapses to the bias
term: every activation is multiplied by zero, the empty dot product divides
to zero, and only (output_bias * SCALE) / QAB remains. -/
theorem evaluate_zero_weights (net : PatriciaNetParams) (acc : PatriciaAccumulator)
    (pw : Bool) (h : ∀ j, net.output_weights j = 0) :
    evaluate net acc pw = Int.tdiv (net.output_bias * PATRICIA_SCALE) PATRICIA_QAB := by
  unfold evaluate
  simp [h, Int.zero_tdiv]

/-- With zero feature weights and zero feature bias, a full rebuild yields
the all-zero accumulator. -/
theorem refresh_zero_net (net : PatriciaNetParams) (pos : Position)
    (hw : ∀ j, net.feature_weights j = 0) (hb : ∀ i, net.feature_bias i = 0) :
    refresh_accumulator net pos = zero_accumulator := by
  unfold refresh_accumulator zero_accumulator
  congr 1 <;> funext i <;> simp [weightRowW, weightRowB, hw, hb]

/-! C6: exact quantization arithmetic of the forward pass. -/

/-- The forward-pass formula exactly as the spec words it: activations times
the own-perspective output segment 0 and other-perspective segment 1, summed,
divided by QA (truncating), plus the output bias, times SCALE, divided by
QA * QB (truncating). -/
def evaluate_spec_formula (net : PatriciaNetParams) (accumulator : PatriciaAccumulator)
    (perspective_white : Bool) : Int :=
  let own := if perspective_white then accumulator.white else accumulator.black
  let other := if perspective_white then accumulator.black else accumulator.white
  let sum_own : Int :=
    ∑ i : Fin PATRICIA_LAYER1_SIZE, screlu (own i) * net.output_weights i.val
  let sum_other : Int :=
    ∑ i : Fin PATRICIA_LAYER1_SIZE, screlu (other i) * net.output_weights (PATRICIA_LAYER1_SIZE + i.val)
  Int.tdiv ((Int.tdiv (sum_own + sum_other) PATRICIA_QA + net.output_bias) * PATRICIA_SCALE)
    (PATRICIA_QA * PATRICIA_QB)

/-- C6: PatriciaNetwork::evaluate computes exactly the spec's quantization
formula, with every division truncating toward zero; in particular for a
network with all-zero weights and any output bias it returns exactly
output_bias * SCALE / (QA * QB) on every accumulator. -/
theorem C6_quantization_exactness :
    (∀ net acc pw, evaluate net acc pw = evaluate_spec_formula net acc pw) ∧
    (∀ net acc pw, (∀ j, net.output_weights j = 0) →
      evaluate net acc pw = Int.tdiv (net.output_bias * PATRICIA_SCALE) (PATRICIA_QA * PATRICIA_QB)) := by
  constructor
  · intro net acc pw
    rfl
  · intro net acc pw h
    rw [evaluate_zero_weights net acc pw h]
    rfl

/-- Witness for C6 at a concrete zero-weight network with output bias -5000:
(-5000 * 400) tdiv (255 * 64) = -122 (truncation toward zero, not -123). -/
theorem C6_quantization_exactness_witness :
    evaluate netBias zero_accumulator true = -122 := by
  have h := C6_quantization_exactness.2 netBias zero_accumulator true (fun j => rfl)
  rw [h]
  decide

/-! C10: network dispatch is total with a silent Middlegame fallback. -/

/-- C10: for any phase value other than the three enumerators, get_network
silently returns the Middlegame (firefly) network; dispatch is a total
function of the phase (it is defined for every Int and never signals). -/
theorem C10_get_network_default (nets : PatriciaNetworks) (phase : Int)
    (h0 : phase ≠ PatriciaPhase.Middlegame) (h1 : phase ≠ PatriciaPhase.Endgame)
    (h2 : phase ≠ PatriciaPhase.Sacrifice) :
    get_network nets phase = nets.firefly := by
  simp [get_network, h0, h1, h2]

/-- Witness for C10 at the out-of-range phase value 7. -/
theorem C10_get_network_default_witness :
    (7 : Int) ≠ PatriciaPhase.Middlegame ∧ get_network netsZero 7 = netsZero.firefly :=
  ⟨by decide, C10_get_network_default netsZero 7 (by decide) (by decide) (by decide)⟩

/-! C4: push has no capacity check. -/

/-- A state whose cursor sits on the last stack slot (STACK_CAPACITY - 1). -/
def stAtLastSlot : PatriciaState :=
  { init_patricia_state netsZero posEmpty with current := STACK_CAPACITY - 1 }

/-- C4 evaluation at the failing input: pushing with the cursor on the last
slot does not fail and takes no error branch - the source has no capacity
check at all; the cursor silently advances to STACK_CAPACITY (one past the
last valid slot) and the copied accumulator is written there. -/
theorem C4_push_overflow_unchecked :
    (push_patricia_accumulator netsZero stAtLastSlot dpNull).current = STACK_CAPACITY ∧
    (push_patricia_accumulator netsZero stAtLastSlot dpNull).accumulatorStack STACK_CAPACITY
      = stAtLastSlot.accumulatorStack (STACK_CAPACITY - 1) := by
  constructor
  · simp [push_patricia_accumulator, stAtLastSlot, STACK_CAPACITY]
  · simp [push_patricia_accumulator, dpNull, stAtLastSlot, STACK_CAPACITY,
      Function.update_same]

/-! C7: push/pop round trip. -/

/-- C7: with a free slot available, push followed by pop restores the top
accumulator bit-for-bit, and pop recomputes nothing - it leaves every stack
slot untouched and only retreats the cursor. -/
theorem C7_push_pop_roundtrip (nets : PatriciaNetworks) (st : PatriciaState)
    (dp : DirtyPiece) (hfree : st.current + 1 < STACK_CAPACITY) :
    (pop_patricia_accumulator (push_patricia_accumulator nets st dp)).accumulatorStack
        (pop_patricia_accumulator (push_patricia_accumulator nets st dp)).current
      = st.accumulatorStack st.current ∧
    (pop_patricia_accumulator (push_patricia_accumulator nets st dp)).accumulatorStack
      = (push_patricia_accumulator nets st dp).accumulatorStack := by
  constructor
  · simp only [pop_patricia_accumulator, push_patricia_accumulator, Nat.add_sub_cancel]
    rw [Function.update_noteq (by omega)]
  · rfl

/-- Witness for C7 at the freshly initialized state (cursor 0) and the empty
delta. -/
theorem C7_push_pop_roundtrip_witness :
    (init_patricia_state netsZero posEmpty).current + 1 < STACK_CAPACITY ∧
    (pop_patricia_accumulator (push_patricia_accumulator netsZero
        (init_patricia_state netsZero posEmpty) dpNull)).accumulatorStack
      (pop_patricia_accumulator (push_patricia_accumulator netsZero
        (init_patricia_state netsZero posEmpty) dpNull)).current
      = (init_patricia_state netsZero posEmpty).accumulatorStack
        (init_patricia_state netsZero posEmpty).current := by
  refine ⟨by norm_num [init_patricia_state, STACK_CAPACITY], ?_⟩
  exact (C7_push_pop_roundtrip netsZero (init_patricia_state netsZero posEmpty) dpNull
    (by norm_num [init_patricia_state, STACK_CAPACITY])).1

/-! C3: the better_than_material bonus. -/

/-- The bonus exactly as the claim words it: sign * (25 + |excess| / 10)
whenever the score lies beyond material_advantage +- threshold on either
side, with no requirement on the sign of the score itself. -/
def better_than_material_claim (eval : Int) (pos : Position) : Int :=
  let material_eval := get_material_diff pos
  let threshold : Int := 150
  if material_eval + threshold < eval then
    25 + Int.tdiv |eval - (material_eval + threshold)| 10
  else if eval < material_eval - threshold then
    -(25 + Int.tdiv |eval - (material_eval - threshold)| 10)
  else 0

/-- The claim amended minimally: the positive bonus additionally requires
eval > 0 and the negative bonus additionally requires eval < 0 (the source
gates each branch on the sign of the score). -/
def better_than_material_amended (eval : Int) (pos : Position) : Int :=
  let material_eval := get_material_diff pos
  let threshold : Int := 150
  if 0 < eval ∧ material_eval + threshold < eval then
    25 + Int.tdiv |eval - (material_eval + threshold)| 10
  else if eval < 0 ∧ eval < material_eval - threshold then
    -(25 + Int.tdiv |eval - (material_eval - threshold)| 10)
  else 0

/-- Board with a black queen on square 0 and a black pawn on square 1, white
to move: the side to move is 1000 centipawns behind in material. -/
def posC3 : Position :=
  { piece_on := fun sq => if sq.val = 0 then 13 else if sq.val = 1 then 9 else 0,
    whiteToMove := true, rule50 := 0 }

/-- Counterexample to C3 as stated: at material advantage -1000 and score
-500, the score exceeds material_advantage + threshold (-500 > -850), so the
claim's formula gives +60, but the source returns 0 because the positive
branch additionally requires the score itself to be positive. -/
theorem C3_counterexample :
    better_than_material (-500) posC3 = 0 ∧
    better_than_material_claim (-500) posC3 = 60 ∧
    better_than_material (-500) posC3 ≠ better_than_material_claim (-500) posC3 := by
  decide

/-- C3 amended: better_than_material returns sign * (25 + |excess| / 10)
exactly when the score lies beyond the threshold band AND has the matching
sign (positive for the upper band, negative for the lower band), else 0. -/
theorem C3_better_than_material_amended (eval : Int) (pos : Position) :
    better_than_material eval pos = better_than_material_amended eval pos := by
  simp only [better_than_material, better_than_material_amended]
  set m := get_material_diff pos with hm
  split_ifs with h1 h2
  · have hx : |eval - (m + 150)| = eval - m - 150 := by
      rw [abs_of_pos (by omega)]; ring
    rw [hx]
  · have hx : |eval - (m - 150)| = m - eval - 150 := by
      rw [abs_of_neg (by omega)]; ring
    rw [hx]
  · rfl

/-! C8: the feature indexing bijection. -/

/-- The twelve Stockfish piece codes: W_PAWN=1..W_KING=6 and B_PAWN=9..B_KING=14. -/
def ValidPiece (pc : Nat) : Prop := (1 ≤ pc ∧ pc ≤ 6) ∨ (9 ≤ pc ∧ pc ≤ 14)

/-- Rank mirroring keeps a square index inside the board. -/
theorem xor56_lt (sq : Nat) (h : sq < 64) : sq ^^^ 56 < 64 := by
  revert sq
  decide

/-- Closed form of the white-perspective index for a valid piece code: the
(pc - 1) % 8 extraction recovers the piece type and the >= 9 test the color. -/
theorem feature_indices_white_eq (pc sq : Nat) (h : ValidPiece pc) :
    (feature_indices pc sq).1 =
      (if 9 ≤ pc then 384 else 0) + (if 9 ≤ pc then pc - 9 else pc - 1) * 64 + sq := by
  rcases h with ⟨h1, h2⟩ | ⟨h1, h2⟩
  · have hlt : ¬ 9 ≤ pc := by omega
    have hmod : (pc - 1) % 8 = pc - 1 := Nat.mod_eq_of_lt (by omega)
    simp [feature_indices, hlt, hmod]
  · have hrw : pc - 1 = (pc - 9) + 8 := by omega
    have hmod : (pc - 1) % 8 = pc - 9 := by
      rw [hrw, Nat.add_mod_right]
      exact Nat.mod_eq_of_lt (by omega)
    simp [feature_indices, h1, hmod]

/-- Closed form of the black-perspective index for a valid piece code: the
color stride is flipped and the square is rank-mirrored. -/
theorem feature_indices_black_eq (pc sq : Nat) (h : ValidPiece pc) :
    (feature_indices pc sq).2 =
      (if 9 ≤ pc then 0 else 384) + (if 9 ≤ pc then pc - 9 else pc - 1) * 64 + (sq ^^^ 56) := by
  rcases h with ⟨h1, h2⟩ | ⟨h1, h2⟩
  · have hlt : ¬ 9 ≤ pc := by omega
    have hmod : (pc - 1) % 8 = pc - 1 := Nat.mod_eq_of_lt (by omega)
    simp [feature_indices, hlt, hmod]
  · have hrw : pc - 1 = (pc - 9) + 8 := by omega
    have hmod : (pc - 1) % 8 = pc - 9 := by
      rw [hrw, Nat.add_mod_right]
      exact Nat.mod_eq_of_lt (by omega)
    simp [feature_indices, h1, hmod]

/-- C8: for every valid (piece, square) pair both feature indices land in
[0,768), white pieces map onto [0,384) and black pieces onto [384,768) of the
white-perspective space, and the white-perspective index is injective over
all valid pairs. -/
theorem C8_feature_bijection (pc sq : Nat) (hpc : ValidPiece pc) (hsq : sq < 64) :
    (feature_indices pc sq).1 < 768 ∧ (feature_indices pc sq).2 < 768 ∧
    (pc ≤ 6 → (feature_indices pc sq).1 < 384) ∧
    (9 ≤ pc → 384 ≤ (feature_indices pc sq).1) ∧
    (∀ pc2 sq2, ValidPiece pc2 → sq2 < 64 →
      (feature_indices pc sq).1 = (feature_indices pc2 sq2).1 → pc = pc2 ∧ sq = sq2) := by
  have hx : sq ^^^ 56 < 64 := xor56_lt sq hsq
  have hw := feature_indices_white_eq pc sq hpc
  have hb := feature_indices_black_eq pc sq hpc
  refine ⟨?_, ?_, ?_, ?_, ?_⟩
  · rcases hpc with ⟨h1, h2⟩ | ⟨h1, h2⟩
    · rw [if_neg (by omega), if_neg (by omega)] at hw
      omega
    · rw [if_pos h1, if_pos h1] at hw
      omega
  · rcases hpc with ⟨h1, h2⟩ | ⟨h1, h2⟩
    · rw [if_neg (by omega), if_neg (by omega)] at hb
      omega
    · rw [if_pos h1, if_pos h1] at hb
      omega
  · intro h6
    rw [if_neg (by omega), if_neg (by omega)] at hw
    rcases hpc with ⟨h1, h2⟩ | ⟨h1, h2⟩ <;> omega
  · intro h9
    rw [if_pos h9, if_pos h9] at hw
    omega
  · intro pc2 sq2 hpc2 hsq2 heq
    have hw2 := feature_indices_white_eq pc2 sq2 hpc2
    rw [hw, hw2] at heq
    rcases hpc with ⟨h1, h2⟩ | ⟨h1, h2⟩ <;> rcases hpc2 with ⟨h3, h4⟩ | ⟨h3, h4⟩
    · rw [if_neg (by omega), if_neg (by omega), if_neg (by omega), if_neg (by omega)] at heq
      omega
    · rw [if_neg (by omega), if_neg (by omega), if_pos h3, if_pos h3] at heq
      omega
    · rw [if_pos h1, if_pos h1, if_neg (by omega), if_neg (by omega)] at heq
      omega
    · rw [if_pos h1, if_pos h1, if_pos h3, if_pos h3] at heq
      omega

/-- Witness for C8: the black pawn (code 9) on square 0 is a valid pair and
its white-perspective index lies in the black range. -/
theorem C8_feature_bijection_witness :
    ValidPiece 9 ∧ (0 : Nat) < 64 ∧ 384 ≤ (feature_indices 9 0).1 :=
  ⟨Or.inr ⟨by decide, by decide⟩, by decide,
    (C8_feature_bijection 9 0 (Or.inr ⟨by decide, by decide⟩) (by decide)).2.2.2.1 (by decide)⟩

/-! C2: the fifty-move boundary. -/

/-- Board with a white pawn on square 8, white to move, halfmove clock at the
fifty-move boundary 200; the side to move is 100 centipawns ahead. -/
def posC2 : Position :=
  { piece_on := fun sq => if sq.val = 8 then 1 else 0, whiteToMove := true, rule50 := 200 }

/-- State freshly initialized for posC2 under the all-zero networks. -/
def stC2 : PatriciaState := init_patricia_state netsZero posC2

/-- The dispatch of the Middlegame phase value is the firefly slot. -/
theorem get_network_middlegame (nets : PatriciaNetworks) :
    get_network nets PatriciaPhase.Middlegame = nets.firefly := rfl

/-- The dispatch of the Endgame phase value is the rw3 slot. -/
theorem get_network_endgame (nets : PatriciaNetworks) :
    get_network nets PatriciaPhase.Endgame = nets.rw3 := rfl

/-- The top accumulator of stC2 is all zero (zero network). -/
theorem stC2_top : stC2.accumulatorStack stC2.current = zero_accumulator := by
  show Function.update (fun _ => zero_accumulator) 0
      (refresh_accumulator (get_network netsZero PatriciaPhase.Middlegame) posC2) 0
    = zero_accumulator
  rw [Function.update_same]
  exact refresh_zero_net _ posC2 (fun j => rfl) (fun i => rfl)

/-- At depth 1 the phase check is skipped and the raw score of stC2 under the
zero network is 0. -/
theorem rawC2_eq : raw_after_phase netsZero posC2 stC2 1 = 0 := by
  unfold raw_after_phase
  have hpc : phase_checked_state netsZero posC2 stC2 1 = stC2 := by
    unfold phase_checked_state
    rw [if_neg]
    intro hc
    exact absurd hc.1 (by norm_num)
  rw [hpc]
  show evaluate (get_network netsZero stC2.phase) (stC2.accumulatorStack stC2.current)
    posC2.whiteToMove = 0
  rw [stC2_top, evaluate_zero_weights _ _ _ (fun j => rfl)]
  decide

/-- Counterexample to C2 as stated: at halfmove clock 200 with a non-terminal
raw score, evaluate_patricia returns -50, not 0 - the fifty-move decay zeroes
the score, but draw_contempt is applied afterwards and subtracts 50 because
the side to move is ahead in material. -/
theorem C2_counterexample :
    is_win (raw_after_phase netsZero posC2 stC2 1) = false ∧
    is_loss (raw_after_phase netsZero posC2 stC2 1) = false ∧
    posC2.rule50 = 200 ∧
    (evaluate_patricia netsZero posC2 stC2 1 1).1 = -50 := by
  refine ⟨by rw [rawC2_eq]; decide, by rw [rawC2_eq]; decide, rfl, ?_⟩
  simp only [evaluate_patricia, rawC2_eq]
  set_option maxRecDepth 4000 in decide

/-- C2 amended: with halfmove clock 200 and a non-terminal raw score, the
fifty-move decay forces the score entering draw_contempt to 0, so the final
score is exactly the draw-contempt offset: +50 when the side to move is
behind in material, -50 when ahead, 0 when level - independent of
better_than_material, sacrifice_bonus and material_scaling. -/
theorem C2_fifty_move_amended (nets : PatriciaNetworks) (pos : Position)
    (st : PatriciaState) (depth search_ply : Int)
    (h200 : pos.rule50 = 200)
    (hw : is_win (raw_after_phase nets pos st depth) = false)
    (hl : is_loss (raw_after_phase nets pos st depth) = false) :
    (evaluate_patricia nets pos st depth search_ply).1 =
      (if get_material_diff pos < 0 then 50
       else if 0 < get_material_diff pos then -50 else 0) := by
  simp only [evaluate_patricia, hw, hl, Bool.or_self, Bool.false_or, if_false]
  rw [h200]
  norm_num [draw_contempt, VALUE_DRAW]

/-- Witness for the amended C2 at posC2 (material advantage +100, clock 200):
the final score is the contempt offset -50. -/
theorem C2_fifty_move_amended_witness :
    posC2.rule50 = 200 ∧ (evaluate_patricia netsZero posC2 stC2 1 1).1 = -50 := by
  refine ⟨rfl, ?_⟩
  have h := C2_fifty_move_amended netsZero posC2 stC2 1 1 rfl
    (by rw [rawC2_eq]; decide) (by rw [rawC2_eq]; decide)
  rw [h]
  decide

/-! C5: Middlegame-to-Endgame transition rebuilds the accumulator. -/

/-- The state component of evaluate_patricia is exactly the phase-checked
state: the modifier pipeline only shapes the returned score. -/
theorem evaluate_patricia_snd (nets : PatriciaNetworks) (pos : Position)
    (st : PatriciaState) (depth search_ply : Int) :
    (evaluate_patricia nets pos st depth search_ply).2
      = phase_checked_state nets pos st depth :=
  rfl

/-- C5: from Middlegame, at a depth of at least 6 that differs from the
memoized check depth, a preliminary score below draw - 100 switches the state
to Endgame and leaves the current accumulator bit-identical to a full rebuild
of the position under the Endgame (rw3) network. -/
theorem C5_phase_transition_rebuild (nets : PatriciaNetworks) (pos : Position)
    (st : PatriciaState) (depth search_ply : Int)
    (hphase : st.phase = PatriciaPhase.Middlegame)
    (hdepth : 6 ≤ depth)
    (hmemo : depth ≠ st.last_phase_check_depth)
    (hprelim : evaluate (get_network nets st.phase) (st.accumulatorStack st.current)
        pos.whiteToMove < VALUE_DRAW - 100) :
    ((evaluate_patricia nets pos st depth search_ply).2).phase = PatriciaPhase.Endgame ∧
    ((evaluate_patricia nets pos st depth search_ply).2).accumulatorStack
        ((evaluate_patricia nets pos st depth search_ply).2).current
      = refresh_accumulator nets.rw3 pos := by
  rw [evaluate_patricia_snd]
  have hdp : detect_phase (evaluate (get_network nets st.phase)
      (st.accumulatorStack st.current) pos.whiteToMove) depth = PatriciaPhase.Endgame := by
    unfold detect_phase
    rw [if_pos hdepth, if_pos hprelim]
  have hne : PatriciaPhase.Endgame ≠ st.phase := by
    rw [hphase]
    decide
  simp only [phase_checked_state, if_pos (And.intro hdepth hmemo), hdp, if_pos hne,
    get_network_endgame]
  exact ⟨trivial, Function.update_same _ _ _⟩

/-- Networks for the C5 witness: a Middlegame network whose forward pass
returns -122 from the zero accumulator, and zero networks elsewhere. -/
def netsC5 : PatriciaNetworks := { firefly := netBias, rw3 := netZero, allie := netZero }

/-- State freshly initialized for the empty board under netsC5. -/
def stC5 : PatriciaState := init_patricia_state netsC5 posEmpty

/-- The top accumulator of stC5 is all zero (netBias has zero feature
weights and bias). -/
theorem stC5_top : stC5.accumulatorStack stC5.current = zero_accumulator := by
  show Function.update (fun _ => zero_accumulator) 0
      (refresh_accumulator (get_network netsC5 PatriciaPhase.Middlegame) posEmpty) 0
    = zero_accumulator
  rw [Function.update_same]
  exact refresh_zero_net _ posEmpty (fun j => rfl) (fun i => rfl)

/-- Witness for C5: at depth 6 from the fresh Middlegame state, the -122
preliminary score is below draw - 100 and the call lands in Endgame with the
accumulator rebuilt under rw3. -/
theorem C5_phase_transition_rebuild_witness :
    evaluate (get_network netsC5 stC5.phase) (stC5.accumulatorStack stC5.current)
        posEmpty.whiteToMove < VALUE_DRAW - 100 ∧
    ((evaluate_patricia netsC5 posEmpty stC5 6 0).2).phase = PatriciaPhase.Endgame ∧
    ((evaluate_patricia netsC5 posEmpty stC5 6 0).2).accumulatorStack
        ((evaluate_patricia netsC5 posEmpty stC5 6 0).2).current
      = refresh_accumulator netsC5.rw3 posEmpty := by
  have hpre : evaluate (get_network netsC5 stC5.phase) (stC5.accumulatorStack stC5.current)
      posEmpty.whiteToMove < VALUE_DRAW - 100 := by
    rw [stC5_top, evaluate_zero_weights _ _ _ (fun j => rfl)]
    decide
  have h := C5_phase_transition_rebuild netsC5 posEmpty stC5 6 0 rfl (by decide)
    (by decide) hpre
  exact ⟨hpre, h.1, h.2⟩

/-! C1: rebuild equivalence along any push/pop line from a rebuilt root. -/

/-- The feature event of one optional (piece, square) slot of a DirtyPiece:
a singleton when the square is present, empty for the SQ_NONE sentinel. -/
def optFeature (pc : Nat) (osq : Option (Fin 64)) : Multiset (Nat × Nat) :=
  match osq with
  | some sq => {(pc, sq.val)}
  | none => 0

/-- The (piece, square) pairs a push removes: the moved piece from its origin
and the captured piece / castling rook from its square. -/
def dp_removals (dp : DirtyPiece) : Multiset (Nat × Nat) :=
  optFeature dp.pc dp.fromSq + optFeature dp.remove_pc dp.remove_sq

/-- The (piece, square) pairs a push adds: the moved piece on its destination
and the promoted piece / castling rook on its square. -/
def dp_additions (dp : DirtyPiece) : Multiset (Nat × Nat) :=
  optFeature dp.pc dp.toSq + optFeature dp.add_pc dp.add_sq

/-- The delta describes the move actually made from pos to pos2: the occupied
(piece, square) pairs of the successor board are those of the predecessor
with the delta's removals taken out and its additions put in (stated as a
multiset equation, which is exactly piece-conservation of the move-make
collaborator). -/
def MoveTransition (pos : Position) (dp : DirtyPiece) (pos2 : Position) : Prop :=
  (boardList pos2 : Multiset (Nat × Nat)) + dp_removals dp
    = (boardList pos : Multiset (Nat × Nat)) + dp_additions dp

/-- Sum of white-perspective weight rows (at column i) over a multiset of
(piece, square) pairs. -/
def rowSumW (net : PatriciaNetParams) (M : Multiset (Nat × Nat))
    (i : Fin PATRICIA_LAYER1_SIZE) : Int16 :=
  (M.map fun e => weightRowW net e i).sum

/-- Sum of black-perspective weight rows (at column i) over a multiset of
(piece, square) pairs. -/
def rowSumB (net : PatriciaNetParams) (M : Multiset (Nat × Nat))
    (i : Fin PATRICIA_LAYER1_SIZE) : Int16 :=
  (M.map fun e => weightRowB net e i).sum

/-- Row sums are additive over multiset union. -/
theorem rowSumW_add (net : PatriciaNetParams) (M N : Multiset (Nat × Nat))
    (i : Fin PATRICIA_LAYER1_SIZE) :
    rowSumW net (M + N) i = rowSumW net M i + rowSumW net N i := by
  simp [rowSumW, Multiset.map_add, Multiset.sum_add]

/-- Row sums are additive over multiset union (black perspective). -/
theorem rowSumB_add (net : PatriciaNetParams) (M N : Multiset (Nat × Nat))
    (i : Fin PATRICIA_LAYER1_SIZE) :
    rowSumB net (M + N) i = rowSumB net M i + rowSumB net N i := by
  simp [rowSumB, Multiset.map_add, Multiset.sum_add]

/-- The white vector of a rebuilt accumulator is the bias plus the row sum
over the occupied squares. -/
theorem refresh_white (net : PatriciaNetParams) (pos : Position)
    (i : Fin PATRICIA_LAYER1_SIZE) :
    (refresh_accumulator net pos).white i
      = net.feature_bias i + rowSumW net (boardList pos : Multiset (Nat × Nat)) i := by
  simp [refresh_accumulator, rowSumW, Multiset.map_coe, Multiset.sum_coe]

/-- The black vector of a rebuilt accumulator is the bias plus the row sum
over the occupied squares. -/
theorem refresh_black (net : PatriciaNetParams) (pos : Position)
    (i : Fin PATRICIA_LAYER1_SIZE) :
    (refresh_accumulator net pos).black i
      = net.feature_bias i + rowSumB net (boardList pos : Multiset (Nat × Nat)) i := by
  simp [refresh_accumulator, rowSumB, Multiset.map_coe, Multiset.sum_coe]

/-- One feature update adds or subtracts the matching white weight row on the
white perspective. -/
theorem apply_feature_update_white (net : PatriciaNetParams) (acc : PatriciaAccumulator)
    (pc sq : Nat) (add : Bool) (i : Fin PATRICIA_LAYER1_SIZE) :
    (apply_feature_update net acc pc sq add).white i
      = (if add then acc.white i + weightRowW net (pc, sq) i
         else acc.white i - weightRowW net (pc, sq) i) := by
  simp [apply_feature_update, update_accumulator, weightRowW]

/-- One feature update adds or subtracts the matching black weight row on the
black perspective. -/
theorem apply_feature_update_black (net : PatriciaNetParams) (acc : PatriciaAccumulator)
    (pc sq : Nat) (add : Bool) (i : Fin PATRICIA_LAYER1_SIZE) :
    (apply_feature_update net acc pc sq add).black i
      = (if add then acc.black i + weightRowB net (pc, sq) i
         else acc.black i - weightRowB net (pc, sq) i) := by
  simp [apply_feature_update, update_accumulator, weightRowB]

/-- The white vector of the new top after a push: the old top plus the rows
of the delta's additions minus the rows of its removals (the four updates
commute in the wraparound group). -/
theorem push_top_white (nets : PatriciaNetworks) (st : PatriciaState) (dp : DirtyPiece)
    (i : Fin PATRICIA_LAYER1_SIZE) :
    ((push_patricia_accumulator nets st dp).accumulatorStack
        (push_patricia_accumulator nets st dp).current).white i
      = (st.accumulatorStack st.current).white i
        + rowSumW (get_network nets st.phase) (dp_additions dp) i
        - rowSumW (get_network nets st.phase) (dp_removals dp) i := by
  simp only [push_patricia_accumulator]
  rw [Function.update_same]
  rcases dp with ⟨pc, f, t, rpc, rsq, apc, asq⟩
  cases f <;> cases t <;> cases rsq <;> cases asq <;>
    simp [apply_feature_update_white, dp_additions, dp_removals, optFeature,
      rowSumW, Multiset.map_add, Multiset.sum_add] <;>
    ring

/-- The black vector of the new top after a push: the old top plus the rows
of the delta's additions minus the rows of its removals. -/
theorem push_top_black (nets : PatriciaNetworks) (st : PatriciaState) (dp : DirtyPiece)
    (i : Fin PATRICIA_LAYER1_SIZE) :
    ((push_patricia_accumulator nets st dp).accumulatorStack
        (push_patricia_accumulator nets st dp).current).black i
      = (st.accumulatorStack st.current).black i
        + rowSumB (get_network nets st.phase) (dp_additions dp) i
        - rowSumB (get_network nets st.phase) (dp_removals dp) i := by
  simp only [push_patricia_accumulator]
  rw [Function.update_same]
  rcases dp with ⟨pc, f, t, rpc, rsq, apc, asq⟩
  cases f <;> cases t <;> cases rsq <;> cases asq <;>
    simp [apply_feature_update_black, dp_additions, dp_removals, optFeature,
      rowSumB, Multiset.map_add, Multiset.sum_add] <;>
    ring

/-- A faithful delta turns the rebuilt accumulator of pos into the rebuilt
accumulator of pos2 (white vector). -/
theorem refresh_move_white (net : PatriciaNetParams) {pos : Position} {dp : DirtyPiece}
    {pos2 : Position} (h : MoveTransition pos dp pos2) (i : Fin PATRICIA_LAYER1_SIZE) :
    (refresh_accumulator net pos2).white i
      = (refresh_accumulator net pos).white i
        + rowSumW net (dp_additions dp) i - rowSumW net (dp_removals dp) i := by
  have h2 := congrArg (fun M : Multiset (Nat × Nat) => rowSumW net M i) h
  simp only [rowSumW_add] at h2
  rw [refresh_white, refresh_white]
  linear_combination h2

/-- A faithful delta turns the rebuilt accumulator of pos into the rebuilt
accumulator of pos2 (black vector). -/
theorem refresh_move_black (net : PatriciaNetParams) {pos : Position} {dp : DirtyPiece}
    {pos2 : Position} (h : MoveTransition pos dp pos2) (i : Fin PATRICIA_LAYER1_SIZE) :
    (refresh_accumulator net pos2).black i
      = (refresh_accumulator net pos).black i
        + rowSumB net (dp_additions dp) i - rowSumB net (dp_removals dp) i := by
  have h2 := congrArg (fun M : Multiset (Nat × Nat) => rowSumB net M i) h
  simp only [rowSumB_add] at h2
  rw [refresh_black, refresh_black]
  linear_combination h2

/-- The states and positions reachable from a rebuilt root by any sequence
of push / pop calls whose deltas describe the moves actually made: the line
lists the positions of the current search line, most recent first. Pop is
only applicable when a matching push occurred (never below the root). -/
inductive Reaches (nets : PatriciaNetworks) : Position → PatriciaState → List Position → Prop
  | root (pos : Position) :
      Reaches nets pos (init_patricia_state nets pos) [pos]
  | push_step (pos : Position) (st : PatriciaState) (line : List Position)
      (dp : DirtyPiece) (pos2 : Position) :
      Reaches nets pos st line → MoveTransition pos dp pos2 →
      Reaches nets pos2 (push_patricia_accumulator nets st dp) (pos2 :: line)
  | pop_step (pos2 pos : Position) (st : PatriciaState) (line : List Position) :
      Reaches nets pos2 st (pos2 :: pos :: line) →
      Reaches nets pos (pop_patricia_accumulator st) (pos :: line)

/-- The reachability invariant: the phase never leaves Middlegame under pure
push/pop traffic, the cursor tracks the line length, every live stack slot
holds exactly the rebuilt accumulator of its line position, and the line
head is the current position. -/
theorem reaches_invariant (nets : PatriciaNetworks) (pos : Position) (st : PatriciaState)
    (line : List Position) (h : Reaches nets pos st line) :
    st.phase = PatriciaPhase.Middlegame ∧
    line.length = st.current + 1 ∧
    (∀ i (hi : i < line.length),
        st.accumulatorStack (st.current - i)
          = refresh_accumulator (get_network nets st.phase) (line.get ⟨i, hi⟩)) ∧
    (∀ h0 : 0 < line.length, line.get ⟨0, h0⟩ = pos) := by
  induction h with
  | root pos =>
    refine ⟨rfl, rfl, ?_, fun h0 => rfl⟩
    intro i hi
    have hz : i = 0 := by
      simpa using Nat.lt_one_iff.mp (by simpa using hi)
    subst hz
    show Function.update (fun _ => zero_accumulator) 0
        (refresh_accumulator (get_network nets PatriciaPhase.Middlegame) pos) (0 - 0)
      = refresh_accumulator
          (get_network nets (init_patricia_state nets pos).phase) pos
    rw [Function.update_same]
    rfl
  | push_step pos st line dp pos2 hr hmt ih =>
    obtain ⟨ihP, ihL, ihS, ihH⟩ := ih
    have hphase : (push_patricia_accumulator nets st dp).phase = st.phase := rfl
    have hcur : (push_patricia_accumulator nets st dp).current = st.current + 1 := rfl
    refine ⟨by rw [hphase]; exact ihP, by simp [hcur, ihL], ?_, fun h0 => rfl⟩
    intro i hi
    match i, hi with
    | 0, hi =>
      have h0 : 0 < line.length := by omega
      have htop := ihS 0 h0
      rw [Nat.sub_zero] at htop
      rw [ihH h0] at htop
      refine PatriciaAccumulator.ext ?_ ?_ <;> funext j
      · have hp := push_top_white nets st dp j
        rw [Nat.sub_zero, hp, htop, hphase]
        show _ = (refresh_accumulator (get_network nets st.phase) pos2).white j
        rw [refresh_move_white (get_network nets st.phase) hmt j]
      · have hp := push_top_black nets st dp j
        rw [Nat.sub_zero, hp, htop, hphase]
        show _ = (refresh_accumulator (get_network nets st.phase) pos2).black j
        rw [refresh_move_black (get_network nets st.phase) hmt j]
    | j + 1, hi =>
      have hj : j < line.length := by
        have := hi
        simp at this
        omega
      have hidx : (push_patricia_accumulator nets st dp).current - (j + 1)
          = st.current - j := by
        rw [hcur]
        omega
      have hne : st.current - j ≠ st.current + 1 := by omega
      have hstack : (push_patricia_accumulator nets st dp).accumulatorStack (st.current - j)
          = st.accumulatorStack (st.current - j) := by
        show Function.update st.accumulatorStack (st.current + 1) _ (st.current - j)
          = st.accumulatorStack (st.current - j)
        rw [Function.update_noteq hne]
      rw [hidx, hstack, hphase]
      exact ihS j hj
  | pop_step pos2 pos st line hr ih =>
    obtain ⟨ihP, ihL, ihS, ihH⟩ := ih
    have hlen : line.length + 2 = st.current + 1 := by simpa using ihL
    have hphase : (pop_patricia_accumulator st).phase = st.phase := rfl
    have hcur : (pop_patricia_accumulator st).current = st.current - 1 := rfl
    refine ⟨by rw [hphase]; exact ihP, by simp only [List.length_cons, hcur]; omega, ?_,
      fun h0 => rfl⟩
    intro i hi
    have hi2 : i + 1 < (pos2 :: pos :: line).length := by
      simp at hi ⊢
      omega
    have hidx : (pop_patricia_accumulator st).current - i = st.current - (i + 1) := by
      rw [hcur]
      omega
    have := ihS (i + 1) hi2
    rw [hidx, hphase]
    exact this

/-- C1: for every position reachable from a rebuilt root by any sequence of
push / pop calls carrying the deltas of the moves actually made and unmade,
the incrementally maintained top accumulator is bit-identical (all entries of
both perspective vectors, in 16-bit wraparound arithmetic) to a full
refresh_accumulator of that position under the same (still active) network. -/
theorem C1_rebuild_equivalence (nets : PatriciaNetworks) (pos : Position)
    (st : PatriciaState) (line : List Position) (h : Reaches nets pos st line) :
    st.accumulatorStack st.current
      = refresh_accumulator (get_network nets st.phase) pos := by
  obtain ⟨hP, hL, hS, hH⟩ := reaches_invariant nets pos st line h
  have h0 : 0 < line.length := by omega
  have htop := hS 0 h0
  rw [Nat.sub_zero, hH h0] at htop
  exact htop

/-- Board for the C1 witness root: a white pawn on square 0. -/
def posW0 : Position :=
  { piece_on := fun sq => if sq.val = 0 then 1 else 0, whiteToMove := true, rule50 := 0 }

/-- Board after moving the white pawn from square 0 to square 8. -/
def posW1 : Position :=
  { piece_on := fun sq => if sq.val = 8 then 1 else 0, whiteToMove := true, rule50 := 0 }

/-- Delta of that pawn move: remove from square 0, add on square 8, no
capture, no promotion. -/
def dpW : DirtyPiece :=
  { pc := 1, fromSq := some 0, toSq := some 8, remove_pc := 0, remove_sq := none,
    add_pc := 0, add_sq := none }

/-- State after the sequence init; push(dpW); pop() - back at the root
position. -/
def stW : PatriciaState :=
  pop_patricia_accumulator
    (push_patricia_accumulator netsZero (init_patricia_state netsZero posW0) dpW)

/-- Witness for C1 along a concrete push-then-pop line: the state is
reachable and its top accumulator equals the rebuild of the root position. -/
theorem C1_rebuild_equivalence_witness :
    Reaches netsZero posW0 stW [posW0] ∧
    stW.accumulatorStack stW.current
      = refresh_accumulator (get_network netsZero stW.phase) posW0 := by
  have hmt : MoveTransition posW0 dpW posW1 := by
    show (boardList posW1 : Multiset (Nat × Nat)) + dp_removals dpW
      = (boardList posW0 : Multiset (Nat × Nat)) + dp_additions dpW
    set_option maxRecDepth 4000 in decide
  have hr : Reaches netsZero posW0 stW [posW0] :=
    Reaches.pop_step posW1 posW0 _ []
      (Reaches.push_step posW0 _ [posW0] dpW posW1 (Reaches.root posW0) hmt)
  exact ⟨hr, C1_rebuild_equivalence netsZero posW0 stW [posW0] hr⟩

end Patricia
